import Mathlib

/-!
Verification of the thenewboston-node core (memory blockchain, block message
validation, account balance serialization) against its natural-language
specification.

The Python source is shallowly embedded: Python `int` becomes `Int`,
`Optional[T]` becomes `Option T`, dictionaries become association lists,
raised exceptions become `Except PyErr`, and Python generators are modelled
by a setup step (which can raise, as a generator body does on its first
`next()`) followed by an explicit fold over the produced sequence.
-/

/-- Exceptions raised by the embedded code.  `validationError` carries the
message built at the raise site; `valueError` models Python `ValueError`;
`assertionError` models a failing `assert`; `typeError` models `TypeError`
raised by operations on `None`; the remaining constructors model the
dedicated exception classes of the repository. -/
inductive PyErr where
  | valueError (msg : String)
  | validationError (msg : String)
  | missingEarlierBlocksError
  | assertionError
  | typeError
  | notImplementedError
deriving Repr, DecidableEq

instance {ε α : Type} [DecidableEq ε] [DecidableEq α] : DecidableEq (Except ε α) := fun a b =>
  match a, b with
  | .error x, .error y =>
    if h : x = y then isTrue (by rw [h]) else isFalse (fun hc => h (by cases hc; rfl))
  | .ok x, .ok y =>
    if h : x = y then isTrue (by rw [h]) else isFalse (fun hc => h (by cases hc; rfl))
  | .error _, .ok _ => isFalse (fun hc => by cases hc)
  | .ok _, .error _ => isFalse (fun hc => by cases hc)

/-- Python indexing `l[i]` with negative-index support: a negative index
counts from the end of the list; `none` models an `IndexError`. -/
def pyIndex {α : Type} (l : List α) (i : Int) : Option α :=
  if 0 ≤ i then l.get? i.toNat
  else if 0 ≤ (l.length : Int) + i then l.get? ((l.length : Int) + i).toNat
  else none

/-- A Python datetime-or-anything value, as stored in the dynamically typed
`timestamp` field of a block message: absent (`none`), a datetime with a
time value and an optional tzinfo, or a value of some other type. -/
inductive PyTs where
  | none
  | dt (t : Int) (tz : Option Int)
  | other
deriving Repr, DecidableEq

/-- One coin transfer transaction of a signed change request
(`recipient` and `amount`, as in the repository's transaction model). -/
structure CoinTransferTransaction where
  recipient : String
  amount : Int
deriving Repr, DecidableEq

/-- Modelled from the spec: a signed change request variant for coin
transfer, exposing the signer identity, `sentAmount()` and
`recipientAmount(account)` (the request classes are not under src/). -/
structure CoinTransferSignedChangeRequest where
  signer : String
  txs : List CoinTransferTransaction
deriving Repr, DecidableEq

namespace CoinTransferSignedChangeRequest

/-- Modelled from the spec: `sentAmount()` — the total amount debited from
the signer, the sum of the request's transaction amounts. -/
def get_sent_amount (r : CoinTransferSignedChangeRequest) : Int :=
  (r.txs.map (fun t => t.amount)).sum

/-- Modelled from the spec: `recipientAmount(account)` — the total amount
credited to `recipient` by the request's transactions. -/
def get_recipient_amount (r : CoinTransferSignedChangeRequest) (recipient : String) : Int :=
  ((r.txs.filter (fun t => t.recipient == recipient)).map (fun t => t.amount)).sum

end CoinTransferSignedChangeRequest

/-- Modelled from the spec: `make_balance_lock` (in
`algorithms/updated_account_states/coin_transfer.py`, not under src/) — the
deterministic lock rotation: a non-empty token computed as a pure function
of the signed request content. -/
def make_balance_lock (r : CoinTransferSignedChangeRequest) : String :=
  "rotated:" ++ r.signer ++
    String.join (r.txs.map (fun t => "|" ++ t.recipient ++ ":" ++ toString t.amount))

/-- `AccountState` as used by `block_message.py`: a balance value and an
optional balance lock (recipients carry no lock). -/
structure AccountState where
  balance : Int
  balance_lock : Option String
deriving Repr, DecidableEq

/-- `BlockMessage` (from `models/block_message.py`): the signed content of a
block.  `updated_account_states` is the dict of touched accounts, embedded
as an association list. -/
structure BlockMessage where
  block_type : String
  signed_change_request : Option CoinTransferSignedChangeRequest
  timestamp : PyTs
  block_number : Int
  block_identifier : String
  updated_account_states : List (String × AccountState)
deriving Repr, DecidableEq

namespace BlockMessage

/-- `BlockMessage.get_account_state` (block_message.py line 106):
`(self.updated_account_states or {}).get(account)`. -/
def get_account_state (msg : BlockMessage) (account : String) : Option AccountState :=
  msg.updated_account_states.lookup account

/-- `BlockMessage.get_sent_amount` (block_message.py line 109): asserts the
signed change request is present, then delegates to it. -/
def get_sent_amount (msg : BlockMessage) : Except PyErr Int :=
  match msg.signed_change_request with
  | none => .error .assertionError
  | some r => .ok r.get_sent_amount

/-- `BlockMessage.get_recipient_amount` (block_message.py line 113). -/
def get_recipient_amount (msg : BlockMessage) (recipient : String) : Except PyErr Int :=
  match msg.signed_change_request with
  | none => .error .assertionError
  | some r => .ok (r.get_recipient_amount recipient)

end BlockMessage

/-- Modelled from the spec: a `Block` wraps its `BlockMessage` (the
`Block` model itself, with its signature fields, is not under src/; only
`block.message` is used by the code under verification). -/
structure Block where
  message : BlockMessage
deriving Repr, DecidableEq

/-- An account record of an account root file (snapshot): `value` and a
required `lock` string, as in `AccountBalance` of `account_balance.py`. -/
structure AccountBalance where
  value : Int
  lock : String
deriving Repr, DecidableEq

/-- `AccountRootFile` (snapshot, not under src/; fields modelled from the
spec's Snapshot data model): optional `lastBlockNumber` (absent = genesis),
`lastBlockIdentifier`, optional `lastBlockTimestamp`, and the balances map. -/
structure AccountRootFile where
  last_block_number : Option Int
  last_block_identifier : String
  last_block_timestamp : Option Int
  accounts : List (String × AccountBalance)
deriving Repr, DecidableEq

namespace AccountRootFile

/-- Modelled from the spec: the snapshot's recorded balance value for an
account; `none` when the account is not recorded (matching the
`Optional[int]` return annotation at memory_blockchain.py line 102). -/
def get_balance_value (arf : AccountRootFile) (account : String) : Option Int :=
  (arf.accounts.lookup account).map (fun b => b.value)

/-- Modelled from the spec: the snapshot's recorded lock for an account;
the empty token when the account is not recorded (absent lock). -/
def get_balance_lock (arf : AccountRootFile) (account : String) : String :=
  match arf.accounts.lookup account with
  | some b => b.lock
  | none => ""

/-- Modelled from the spec: a snapshot is the initial (genesis) one exactly
when its `lastBlockNumber` is absent. -/
def is_initial (arf : AccountRootFile) : Bool :=
  arf.last_block_number.isNone

end AccountRootFile

/-- `MemoryBlockchain` state (`memory_blockchain.py`): the ordered snapshot
sequence and the ordered block sequence. -/
structure MemoryBlockchain where
  account_root_files : List AccountRootFile
  blocks : List Block
deriving Repr, DecidableEq

namespace MemoryBlockchain

/-- `MemoryBlockchain.persist_block` (memory_blockchain.py line 25):
appends a deep copy of the block; at the value level the copy is the block
itself (object identity is treated separately, see the heap model below). -/
def persist_block (chain : MemoryBlockchain) (block : Block) : MemoryBlockchain :=
  { chain with blocks := chain.blocks ++ [block] }

/-- `MemoryBlockchain.get_head_block` (memory_blockchain.py line 28). -/
def get_head_block (chain : MemoryBlockchain) : Option Block :=
  chain.blocks.getLast?

/-- `MemoryBlockchain.get_block_by_number` (memory_blockchain.py line 35):
negative numbers are a `ValueError`; an empty store returns `none`; a
number above the head returns `none`; otherwise the block is fetched by
the Python negative index `block_number - head_number - 1`, and an
`IndexError` is converted to `MissingEarlierBlocksError` after asserting
that the earliest retained block is above the requested number. -/
def get_block_by_number (chain : MemoryBlockchain) (block_number : Int) :
    Except PyErr (Option Block) :=
  if block_number < 0 then .error (.valueError "block_number must be greater or equal to 0")
  else
    match chain.blocks.getLast? with
    | none => .ok none
    | some head_block =>
      if head_block.message.block_number < block_number then .ok none
      else
        match pyIndex chain.blocks (block_number - head_block.message.block_number - 1) with
        | some b => .ok (some b)
        | none =>
          match chain.blocks.head? with
          | none => .error .assertionError
          | some first_block =>
            if block_number < first_block.message.block_number
            then .error .missingEarlierBlocksError
            else .error .assertionError

/-- Modelled from the spec: `closestAtOrBefore` / `get_closest_account_root_file`
(declared in the blockchain base class, not under src/): a `none` target
means the most recent snapshot overall; otherwise the latest snapshot whose
`lastBlockNumber` is at most the target, the genesis snapshot (absent
`lastBlockNumber`) matching any target; `none` when no snapshot matches. -/
def get_closest_account_root_file (chain : MemoryBlockchain) (target : Option Int) :
    Option AccountRootFile :=
  chain.account_root_files.reverse.find? (fun arf =>
    match target, arf.last_block_number with
    | none, _ => true
    | some _, none => true
    | some t, some bn => decide (bn ≤ t))

/-- Modelled from the spec: the snapshot accessor under its newer name used
by `validate_timestamp` (block_message.py line 156). -/
def get_closest_blockchain_state_snapshot (chain : MemoryBlockchain) (target : Option Int) :
    Option AccountRootFile :=
  get_closest_account_root_file chain target

/-- The early-return guard of `get_blocks_until_account_root_file`
(memory_blockchain.py line 60): an explicit negative start yields nothing. -/
def startNeg : Option Int → Bool
  | none => false
  | some s => decide (s < 0)

/-- The assertion at memory_blockchain.py lines 72-75. -/
def assert72 : Option Int → Option Int → Bool
  | none, _ => true
  | _, none => true
  | some s, some a => decide (a ≤ s)

/-- The per-iteration assertion at memory_blockchain.py lines 88-90. -/
def assertLoop : Option Int → Block → Bool
  | none, _ => true
  | some a, b => decide (a < b.message.block_number)

/-- `MemoryBlockchain.get_blocks_until_account_root_file`
(memory_blockchain.py line 54), modelled as the generator's setup: it
returns the closest snapshot's `last_block_number` together with the list
of blocks the `islice` over the reversed block list would yield, or raises
(as the generator body does on its first `next()`): the assertion at lines
72-75 can fail, and `islice` raises `ValueError` on a negative index. -/
def get_blocks_until_account_root_file (chain : MemoryBlockchain)
    (start_block_number : Option Int) : Except PyErr (Option Int × List Block) :=
  if startNeg start_block_number then .ok (none, [])
  else
    match chain.blocks.getLast? with
    | none => .ok (none, [])
    | some head_block =>
      match get_closest_account_root_file chain start_block_number with
      | none => .ok (none, [])
      | some account_root_file =>
        let account_root_file_block_number := account_root_file.last_block_number
        if assert72 start_block_number account_root_file_block_number then
          let current_head_block_number := head_block.message.block_number
          let offset : Int :=
            match start_block_number with
            | none => 0
            | some s => current_head_block_number - s
          let blocks_to_return : Int :=
            match account_root_file_block_number with
            | none => (chain.blocks.length : Int) - offset
            | some a => current_head_block_number - a - offset
          if offset < 0 || offset + blocks_to_return < 0 then
            .error (.valueError "Indices for islice() must be None or an integer: 0 <= x <= sys.maxsize.")
          else
            .ok (account_root_file_block_number,
              (chain.blocks.reverse.drop offset.toNat).take
                ((offset + blocks_to_return).toNat - offset.toNat))
        else .error .assertionError

end MemoryBlockchain

/-- The consumption of the generator of
`get_blocks_until_account_root_file`: each yielded block passes the loop
assertion first; `f` is the consumer's per-block extraction, and the first
`some` result short-circuits (as the consumers' `return` statements do). -/
def scan_blocks {α : Type} (account_root_file_block_number : Option Int)
    (f : Block → Option α) : List Block → Except PyErr (Option α)
  | [] => .ok none
  | b :: rest =>
    if MemoryBlockchain.assertLoop account_root_file_block_number b then
      match f b with
      | some v => .ok (some v)
      | none => scan_blocks account_root_file_block_number f rest
    else .error .assertionError

namespace MemoryBlockchain

/-- `MemoryBlockchain._get_balance_from_block` (memory_blockchain.py line
94): walk the generator and return the first balance recorded for the
account. -/
def get_balance_from_block (chain : MemoryBlockchain) (account : String)
    (block_number : Option Int) : Except PyErr (Option Int) := do
  let p ← get_blocks_until_account_root_file chain block_number
  scan_blocks p.1 (fun b => (b.message.get_account_state account).map (fun s => s.balance)) p.2

/-- `MemoryBlockchain._get_balance_from_account_root_file`
(memory_blockchain.py line 102). -/
def get_balance_from_account_root_file (chain : MemoryBlockchain) (account : String)
    (block_number : Option Int) : Except PyErr (Option Int) :=
  match get_closest_account_root_file chain block_number with
  | none => .error .assertionError
  | some account_root_file => .ok (account_root_file.get_balance_value account)

/-- `MemoryBlockchain.get_account_balance` (memory_blockchain.py line 107):
targets below `-1` are a `ValueError`; otherwise the balance from the block
window, falling back to the closest snapshot. -/
def get_account_balance (chain : MemoryBlockchain) (account : String)
    (block_number : Option Int) : Except PyErr (Option Int) :=
  if (match block_number with | some t => decide (t < -1) | none => false) then
    .error (.valueError "block_number must be greater or equal to -1")
  else do
    let balance ← get_balance_from_block chain account block_number
    match balance with
    | some v => .ok (some v)
    | none => get_balance_from_account_root_file chain account block_number

/-- The lock extraction of `get_account_balance_lock`: a block contributes
its recorded lock only when the account is mentioned and the lock is truthy
(present and non-empty); otherwise the scan continues. -/
def lockOf : Option AccountState → Option String
  | none => none
  | some st =>
    match st.balance_lock with
    | none => none
    | some l => if l = "" then none else some l

/-- `MemoryBlockchain.get_account_balance_lock` (memory_blockchain.py line
123): head-relative scan for the first truthy lock, falling back to the
closest snapshot's lock. -/
def get_account_balance_lock (chain : MemoryBlockchain) (account : String) :
    Except PyErr String := do
  let p ← get_blocks_until_account_root_file chain none
  let r ← scan_blocks p.1 (fun b => lockOf (b.message.get_account_state account)) p.2
  match r with
  | some l => .ok l
  | none =>
    match get_closest_account_root_file chain none with
    | none => .error .assertionError
    | some account_root_file => .ok (account_root_file.get_balance_lock account)

/-- `MemoryBlockchain.validate_account_root_files` (memory_blockchain.py
line 156): the snapshot sequence must be non-empty. -/
def validate_account_root_files (chain : MemoryBlockchain) : Except PyErr Unit :=
  if chain.account_root_files.isEmpty then
    .error (.validationError "Blockchain must contain at least one account root file")
  else .ok ()

/-- The block sequence `validate_blocks` iterates (memory_blockchain.py
lines 177-185).  Note the Python slip: when only `offset` is given,
`islice(blocks, start)` treats the single argument as the stop, taking the
first `start` blocks instead of skipping them. -/
def validate_blocks_slice (blocks : List Block) (offset limit : Option Nat) : List Block :=
  match offset, limit with
  | none, none => blocks
  | _, _ =>
    let start := offset.getD 0
    match limit with
    | none => blocks.take start
    | some l => (blocks.drop start).take l

end MemoryBlockchain

/-- The validation loop of `validate_blocks` (memory_blockchain.py lines
187-188): each block is delegated to the per-block validator `bv`
(`Block.validate`, outside src/, abstracted as a parameter); the first
failure aborts. -/
def runValidations (bv : Block → Except PyErr Unit) : List Block → Except PyErr Unit
  | [] => .ok ()
  | b :: rest => do
    bv b
    runValidations bv rest

namespace MemoryBlockchain

/-- `MemoryBlockchain.validate_blocks` (memory_blockchain.py line 170):
validates the sliced sequence block by block and then unconditionally
raises `NotImplementedError` (line 190). -/
def validate_blocks (bv : Block → Except PyErr Unit) (chain : MemoryBlockchain)
    (offset limit : Option Nat) : Except PyErr Unit := do
  runValidations bv (validate_blocks_slice chain.blocks offset limit)
  (.error .notImplementedError : Except PyErr Unit)

/-- `MemoryBlockchain.validate` (memory_blockchain.py line 152): checks the
snapshot sequence, then calls `validate_blocks()` without forwarding
`block_offset` and `block_limit` (exactly as the source does at line 154). -/
def validate (bv : Block → Except PyErr Unit) (chain : MemoryBlockchain)
    (block_offset block_limit : Option Nat) : Except PyErr Unit := do
  validate_account_root_files chain
  validate_blocks bv chain none none

end MemoryBlockchain

/-- Modelled from the spec: `validate_not_empty` (validators module, not
under src/) — fails unless the optional value is present and truthy
(a non-empty token). -/
def validate_not_empty (subject : String) (value : Option String) : Except PyErr Unit :=
  match value with
  | none => .error (.validationError (subject ++ " must be set"))
  | some s => if s = "" then .error (.validationError (subject ++ " must be set")) else .ok ()

/-- Modelled from the spec: `validate_empty` (validators module, not under
src/) — for non-signer accounts "the lock must be absent". -/
def validate_empty (subject : String) (value : Option String) : Except PyErr Unit :=
  match value with
  | none => .ok ()
  | some _ => .error (.validationError (subject ++ " must be empty"))

/-- Modelled from the spec: `validate_exact_value` (validators module, not
under src/) — "any mismatch fails, naming the account and the expected vs.
the actual value"; the subject string carries the account number. -/
def validate_exact_value {α : Type} [DecidableEq α] [ToString α]
    (subject : String) (value expected : α) : Except PyErr Unit :=
  if value = expected then .ok ()
  else
    .error (.validationError
      (subject ++ " must be equal to " ++ toString expected ++ " (got " ++ toString value ++ ")"))

/-- Modelled from the spec: `validate_greater_than_zero` (validators
module, not under src/) — "that prior balance must be strictly positive";
an absent balance is not strictly positive. -/
def validate_greater_than_zero (subject : String) (value : Option Int) : Except PyErr Unit :=
  match value with
  | some v =>
    if 0 < v then .ok ()
    else .error (.validationError (subject ++ " must be greater than zero"))
  | none => .error (.validationError (subject ++ " must be greater than zero"))

/-- The subject string built at block_message.py lines 236-239 and 252-255
(`humanized_class_name_lowered` is `block message`). -/
def account_subject (is_sender : Bool) (account_number : String) : String :=
  "block message " ++ (if is_sender then "sender" else "recipient")
    ++ " account " ++ account_number

namespace BlockMessage

/-- `BlockMessage.validate_updated_account_balance_lock` (block_message.py
line 234): a sender's lock must be set, be a string, and equal the
deterministic rotation of the signed request; every other account's lock
must be absent.  (The `validate_type` check cannot fail in this embedding,
where a present lock is statically a string.) -/
def validate_updated_account_balance_lock (msg : BlockMessage) (account_number : String)
    (account_state : AccountState) (is_sender : Bool) : Except PyErr Unit :=
  let subject := account_subject is_sender account_number ++ " balance_lock"
  let balance_lock := account_state.balance_lock
  if is_sender then do
    validate_not_empty subject balance_lock
    match msg.signed_change_request with
    | none => .error .typeError
    | some req => validate_exact_value subject balance_lock (some (make_balance_lock req))
  else validate_empty subject balance_lock

/-- `BlockMessage.validate_updated_account_balance` (block_message.py line
250): resolve the account's balance as of block `N-1`; a sender's prior
balance must be strictly positive and the declared balance must equal
`prior - sentAmount`; a recipient's declared balance must equal
`prior + recipientAmount(account)`.  An absent prior balance makes the
Python arithmetic on `None` raise `TypeError`. -/
def validate_updated_account_balance (msg : BlockMessage) (chain : MemoryBlockchain)
    (account_number : String) (account_state : AccountState) (is_sender : Bool) :
    Except PyErr Unit := do
  let balance ← MemoryBlockchain.get_account_balance chain account_number
    (some (msg.block_number - 1))
  if is_sender then do
    validate_greater_than_zero ("sender account " ++ account_number ++ " current balance") balance
    let sent ← msg.get_sent_amount
    match balance with
    | some v =>
      validate_exact_value (account_subject true account_number ++ " balance")
        account_state.balance (v - sent)
    | none => .error .typeError
  else do
    let ramount ← msg.get_recipient_amount account_number
    match balance with
    | some v =>
      validate_exact_value (account_subject false account_number ++ " balance")
        account_state.balance (v + ramount)
    | none => .error .typeError

/-- `BlockMessage.validate_timestamp` (block_message.py line 136): the
timestamp must be a set, naive datetime; for block numbers above zero it
must moreover be strictly greater than the reference point: the timestamp
of block `N-1` when the lookup returns it, otherwise the
`last_block_timestamp` of the closest snapshot, which must not be the
initial one and must cover exactly block `N-1`.  A lookup failure
(`MissingEarlierBlocksError` on pruned history) propagates.  Comparing a
naive datetime against a non-datetime or an aware datetime raises
`TypeError` in Python. -/
def validate_timestamp (msg : BlockMessage) (chain : MemoryBlockchain) : Except PyErr Unit :=
  match msg.timestamp with
  | .none => .error (.validationError "Block message timestamp must be set")
  | .other => .error (.validationError "Block message timestamp must be datetime type")
  | .dt t tz =>
    match tz with
    | some _ =>
      .error (.validationError "Block message timestamp must be naive datetime (UTC timezone implied)")
    | none =>
      if 0 < msg.block_number then do
        let prev_block_number := msg.block_number - 1
        let prev_block ← MemoryBlockchain.get_block_by_number chain prev_block_number
        match prev_block with
        | none =>
          match MemoryBlockchain.get_closest_blockchain_state_snapshot chain
              (some msg.block_number) with
          | none => .error (.validationError "Unexpected could not find base account root file")
          | some account_root_file =>
            if account_root_file.is_initial then
              .error (.validationError "Unexpected initial account root file found")
            else if account_root_file.last_block_number ≠ some prev_block_number then
              .error (.validationError "Base account root file block number mismatch")
            else
              match account_root_file.last_block_timestamp with
              | none => .error .assertionError
              | some mt =>
                if t ≤ mt then
                  .error (.validationError "Block message timestamp must be greater than from previous block")
                else .ok ()
        | some prev =>
          match prev.message.timestamp with
          | .dt u none =>
            if t ≤ u then
              .error (.validationError "Block message timestamp must be greater than from previous block")
            else .ok ()
          | _ => .error .typeError
      else .ok ()

end BlockMessage

/-- A Python value stored in a serialized dictionary: an integer, a string,
or `None`. -/
inductive PyVal where
  | vint (n : Int)
  | vstr (s : String)
  | vnone
deriving Repr, DecidableEq

/-- `BlockAccountBalance` (account_balance.py line 42): a balance value and
an optional lock (defaulting to `None`). -/
structure BlockAccountBalance where
  value : Int
  lock : Option String
deriving Repr, DecidableEq

namespace BlockAccountBalance

/-- The generated dataclass serialization `super_to_dict()` used by
`override_to_dict` (account_balance.py line 46): every field is emitted,
an absent lock as `None`. -/
def super_to_dict (b : BlockAccountBalance) : List (String × PyVal) :=
  [("value", .vint b.value),
   ("lock", match b.lock with | some s => .vstr s | none => .vnone)]

/-- `del dict_['lock']` (account_balance.py line 51). -/
def dict_del (d : List (String × PyVal)) (k : String) : List (String × PyVal) :=
  d.filter (fun kv => ¬ (kv.1 == k))

/-- `BlockAccountBalance.override_to_dict` (account_balance.py line 45,
installed as `to_dict()`): serialize, then remove the `lock` key when its
value is `None`. -/
def override_to_dict (b : BlockAccountBalance) : List (String × PyVal) :=
  let dict_ := b.super_to_dict
  match dict_.lookup "lock" with
  | some .vnone => dict_del dict_ "lock"
  | _ => dict_

/-- Modelled from the spec: deserialization of a `BlockAccountBalance`
dictionary (`dataclass_json` machinery, not under src/): `value` is
required; `lock` is an explicit optional field defaulting to `None` when
the key is missing or `None`. -/
def from_dict (d : List (String × PyVal)) : Option BlockAccountBalance :=
  match d.lookup "value" with
  | some (.vint v) =>
    match d.lookup "lock" with
    | none => some { value := v, lock := none }
    | some (.vstr s) => some { value := v, lock := some s }
    | some .vnone => some { value := v, lock := none }
    | some (.vint _) => none
  | _ => none

end BlockAccountBalance

/-- A heap of Python block objects: Python object identity made explicit.
An object reference is an index into `objs`; mutation is `heap_set`. -/
structure PyBlockHeap where
  objs : List Block
deriving Repr, DecidableEq

/-- Dereference an object reference. -/
def heap_get (h : PyBlockHeap) (r : Nat) : Option Block :=
  h.objs.get? r

/-- In-place mutation of the object behind a reference. -/
def heap_set (h : PyBlockHeap) (r : Nat) (b : Block) : PyBlockHeap :=
  ⟨h.objs.set r b⟩

/-- The block store at the object level: a list of references into the
heap, mirroring the Python `self.blocks` list of object pointers. -/
structure MemoryBlockchainRef where
  block_refs : List Nat
deriving Repr, DecidableEq

/-- `persist_block` at the object level (memory_blockchain.py line 26):
`copy.deepcopy(block)` allocates a fresh object with the same value, and
the store appends a reference to the fresh object, never to the argument. -/
def persist_block_ref (h : PyBlockHeap) (c : MemoryBlockchainRef) (bRef : Nat) :
    PyBlockHeap × MemoryBlockchainRef :=
  match heap_get h bRef with
  | some v => (⟨h.objs ++ [v]⟩, ⟨c.block_refs ++ [h.objs.length]⟩)
  | none => (h, c)

/-- The block number behind a reference. -/
def blockNumberOfRef (h : PyBlockHeap) (r : Nat) : Option Int :=
  (heap_get h r).map (fun b => b.message.block_number)

/-- `get_block_by_number` at the object level (memory_blockchain.py line
35): identical logic to the value-level embedding, but it returns the
stored reference itself — the source returns `blocks[block_index]` without
any copy. -/
def get_block_ref_by_number (h : PyBlockHeap) (c : MemoryBlockchainRef) (n : Int) :
    Except PyErr (Option Nat) :=
  if n < 0 then .error (.valueError "block_number must be greater or equal to 0")
  else
    match c.block_refs.getLast? with
    | none => .ok none
    | some hr =>
      match blockNumberOfRef h hr with
      | none => .error .typeError
      | some hbn =>
        if hbn < n then .ok none
        else
          match pyIndex c.block_refs (n - hbn - 1) with
          | some r => .ok (some r)
          | none =>
            match c.block_refs.head? with
            | none => .error .assertionError
            | some r0 =>
              match blockNumberOfRef h r0 with
              | none => .error .typeError
              | some b0n =>
                if n < b0n then .error .missingEarlierBlocksError
                else .error .assertionError

/-- The observable stored state of the object-level store: the block values
reachable through the store's references. -/
def stored_blocks (h : PyBlockHeap) (c : MemoryBlockchainRef) : List (Option Block) :=
  c.block_refs.map (heap_get h)

/-- The chain-shape invariant assumed by the spec: block numbers ascend by
one from the first retained block. -/
def contiguousFrom (n : Int) : List Block → Bool
  | [] => true
  | b :: rest => b.message.block_number == n && contiguousFrom (n + 1) rest

/-- A block store is contiguous when its numbers ascend by one from the
first retained block's number. -/
def contiguous (blocks : List Block) : Bool :=
  match blocks with
  | [] => true
  | b :: _ => contiguousFrom b.message.block_number blocks

/-- Block numbers descend by one from `h`: the shape of a reversed
contiguous store, used by the backward-scan lemmas. -/
def descFrom (h : Int) : List Block → Bool
  | [] => true
  | b :: rest => b.message.block_number == h && descFrom (h - 1) rest

/-- Membership of a block in a scan window: strictly above the optional
lower bound (the closest snapshot's last block number) and at most the
optional upper bound (the target block number; no bound for a
head-relative scan). -/
def inWindow (lower upper : Option Int) (b : Block) : Bool :=
  (match lower with | none => true | some a => decide (a < b.message.block_number)) &&
  (match upper with | none => true | some t => decide (b.message.block_number ≤ t))

/-- A valid resolution target in the sense of the spec: absent (head), or
an integer at least `-1` that does not exceed the head block's number. -/
def validTarget (chain : MemoryBlockchain) (target : Option Int) : Bool :=
  match target with
  | none => true
  | some t =>
    decide (-1 ≤ t) &&
      (match chain.blocks.getLast? with
       | none => true
       | some hb => decide (t ≤ hb.message.block_number))

/-- The snapshot store is usable for the given target: a closest snapshot
exists, and for a head-relative query its last block number does not
exceed the head (the spec's snapshots precede the retained blocks). -/
def snapshotOk (chain : MemoryBlockchain) (target : Option Int) : Bool :=
  match MemoryBlockchain.get_closest_account_root_file chain target with
  | none => false
  | some arf =>
    match target, arf.last_block_number, chain.blocks.getLast? with
    | none, some a, some hb => decide (a ≤ hb.message.block_number)
    | _, _, _ => true

/-- The balance resolution contract, written from the spec's words: the
balance recorded in the newest block of the scan window (strictly above
the closest snapshot's last block number, at most the target) that
mentions the account; the closest snapshot's recorded value when no window
block mentions it; for target `-1`, the snapshot value with no block
consulted at all. -/
def balanceResolutionSpec (chain : MemoryBlockchain) (account : String)
    (target : Option Int) : Option Int :=
  match MemoryBlockchain.get_closest_account_root_file chain target with
  | none => none
  | some arf =>
    let hit : Option Int :=
      if target == some (-1) then none
      else
        chain.blocks.reverse.findSome? (fun b =>
          if inWindow arf.last_block_number target b then
            (b.message.get_account_state account).map (fun s => s.balance)
          else none)
    match hit with
    | some v => some v
    | none => arf.get_balance_value account

/-- The lock resolution contract, written from the spec's words: the lock
of the newest block (head-relative, strictly above the closest snapshot's
last block number) whose entry for the account carries a non-empty lock,
entries with an absent lock being skipped; the closest snapshot's lock
when no such block exists. -/
def lockResolutionSpec (chain : MemoryBlockchain) (account : String) : String :=
  match MemoryBlockchain.get_closest_account_root_file chain none with
  | none => ""
  | some arf =>
    match chain.blocks.reverse.findSome? (fun b =>
        if inWindow arf.last_block_number none b then
          MemoryBlockchain.lockOf (b.message.get_account_state account)
        else none) with
    | some l => l
    | none => arf.get_balance_lock account

/-- The block lookup contract, written from the claim's words: negative
numbers are a caller error; an empty store yields `none`; a number above
the head yields `none`; a number below the earliest retained block fails
with the history-gap error; otherwise the stored block whose number equals
the request is returned (found by search, not by index arithmetic). -/
def get_block_by_number_spec (chain : MemoryBlockchain) (block_number : Int) :
    Except PyErr (Option Block) :=
  if block_number < 0 then .error (.valueError "block_number must be greater or equal to 0")
  else
    match chain.blocks.getLast?, chain.blocks.head? with
    | some hb, some b0 =>
      if hb.message.block_number < block_number then .ok none
      else if block_number < b0.message.block_number then .error .missingEarlierBlocksError
      else
        match chain.blocks.find? (fun b => b.message.block_number == block_number) with
        | some b => .ok (some b)
        | none => .error .assertionError
    | _, _ => .ok none

/-- The first per-block validation failure over a block sequence. -/
def first_block_failure (bv : Block → Except PyErr Unit) (l : List Block) : Option PyErr :=
  l.findSome? (fun b => match bv b with | .ok _ => none | .error e => some e)

/-- The timestamp validation contract, written from the amended claim's
words: the timestamp must be a set, naive datetime; for `N ≥ 1` it must be
strictly greater than the reference point — the timestamp of block `N-1`
when the by-number lookup (specified by search, `get_block_by_number_spec`)
returns it; when the lookup returns `none`, the `last_block_timestamp` of a
non-initial snapshot whose `last_block_number` equals exactly `N-1`; a
lookup below the earliest retained block of a non-empty store fails with
the history-gap error.  For `N = 0` only the naive-datetime checks apply. -/
def validate_timestamp_spec (msg : BlockMessage) (chain : MemoryBlockchain) :
    Except PyErr Unit :=
  match msg.timestamp with
  | .none => .error (.validationError "Block message timestamp must be set")
  | .other => .error (.validationError "Block message timestamp must be datetime type")
  | .dt t tz =>
    match tz with
    | some _ =>
      .error (.validationError "Block message timestamp must be naive datetime (UTC timezone implied)")
    | none =>
      if 0 < msg.block_number then do
        let prev_block_number := msg.block_number - 1
        let prev_block ← get_block_by_number_spec chain prev_block_number
        match prev_block with
        | none =>
          match MemoryBlockchain.get_closest_blockchain_state_snapshot chain
              (some msg.block_number) with
          | none => .error (.validationError "Unexpected could not find base account root file")
          | some account_root_file =>
            if account_root_file.is_initial then
              .error (.validationError "Unexpected initial account root file found")
            else if account_root_file.last_block_number ≠ some prev_block_number then
              .error (.validationError "Base account root file block number mismatch")
            else
              match account_root_file.last_block_timestamp with
              | none => .error .assertionError
              | some mt =>
                if t ≤ mt then
                  .error (.validationError "Block message timestamp must be greater than from previous block")
                else .ok ()
        | some prev =>
          match prev.message.timestamp with
          | .dt u none =>
            if t ≤ u then
              .error (.validationError "Block message timestamp must be greater than from previous block")
            else .ok ()
          | _ => .error .typeError
      else .ok ()

/-- Concrete sample request used by witness and counterexample theorems:
signer `a1` sends 30 to `b2`. -/
def reqW : CoinTransferSignedChangeRequest := ⟨"a1", [⟨"b2", 30⟩]⟩

/-- Concrete genesis snapshot: `a1` holds 100 with initial lock `a1`. -/
def genesisArfW : AccountRootFile := ⟨none, "seed", none, [("a1", ⟨100, "a1"⟩)]⟩

/-- Concrete block 0: `a1` pays 30 to `b2`. -/
def block0W : Block :=
  ⟨⟨"coin_transfer", some reqW, .dt 10 none, 0, "id0",
    [("a1", ⟨70, some (make_balance_lock reqW)⟩), ("b2", ⟨30, none⟩)]⟩⟩

/-- Concrete block 1: `a1` pays another 30 to `b2`. -/
def block1W : Block :=
  ⟨⟨"coin_transfer", some reqW, .dt 20 none, 1, "id1",
    [("a1", ⟨40, some (make_balance_lock reqW)⟩), ("b2", ⟨60, none⟩)]⟩⟩

/-- Concrete two-block chain over the genesis snapshot. -/
def chainW : MemoryBlockchain := ⟨[genesisArfW], [block0W, block1W]⟩

/-- A block-0 message with an early naive timestamp, for the timestamp
claim. -/
def msgT0 : BlockMessage :=
  ⟨"coin_transfer", some reqW, .dt 0 none, 0, "id0",
    [("a1", ⟨70, some (make_balance_lock reqW)⟩), ("b2", ⟨30, none⟩)]⟩

/-- A chain holding only the genesis snapshot and no blocks. -/
def chainT0 : MemoryBlockchain := ⟨[genesisArfW], []⟩

/-- A snapshot covering exactly block 0 (for the pruned-history case). -/
def arfPruned : AccountRootFile := ⟨some 0, "idP", some 5, [("a1", ⟨70, "La"⟩)]⟩

/-- Retained block 1 of a pruned chain. -/
def blockP1 : Block :=
  ⟨⟨"coin_transfer", some reqW, .dt 10 none, 1, "idP1",
    [("a1", ⟨40, some (make_balance_lock reqW)⟩), ("b2", ⟨30, none⟩)]⟩⟩

/-- Retained block 2 of a pruned chain. -/
def blockP2 : Block :=
  ⟨⟨"coin_transfer", some reqW, .dt 20 none, 2, "idP2",
    [("a1", ⟨10, some (make_balance_lock reqW)⟩), ("b2", ⟨30, none⟩)]⟩⟩

/-- A pruned chain: block 0 is gone, a snapshot covers exactly block 0. -/
def chainPruned : MemoryBlockchain := ⟨[arfPruned], [blockP1, blockP2]⟩

/-- A per-block validator that rejects exactly block number 0, used to
observe which blocks chain validation delegates. -/
def bvW : Block → Except PyErr Unit := fun b =>
  if b.message.block_number == 0 then .error (.validationError "block zero invalid")
  else .ok ()

/-- Initial heap for the aliasing scenario: one block object. -/
def heap9 : PyBlockHeap := ⟨[block0W]⟩

/-- Initially empty object-level store. -/
def cref9 : MemoryBlockchainRef := ⟨[]⟩

lemma scan_blocks_none {α : Type} (f : Block → Option α) :
    ∀ l : List Block, scan_blocks none f l = .ok (l.findSome? f) := by
  intro l
  induction l with
  | nil => simp [scan_blocks, List.findSome?]
  | cons b rest ih =>
    simp only [scan_blocks, MemoryBlockchain.assertLoop, if_true]
    cases hfb : f b with
    | some v => simp [List.findSome?_cons, hfb]
    | none => simp [List.findSome?_cons, hfb, ih]

lemma findSome_congr {α β : Type} (f g : α → Option β) :
    ∀ l : List α, (∀ x ∈ l, f x = g x) → l.findSome? f = l.findSome? g := by
  intro l
  induction l with
  | nil => intro _; rfl
  | cons x rest ih =>
    intro hfg
    have hx := hfg x (by simp)
    simp only [List.findSome?_cons, hx]
    cases g x with
    | some v => rfl
    | none => exact ih (fun y hy => hfg y (by simp [hy]))

lemma mem_desc_le :
    ∀ (R : List Block) (h : Int) (b : Block), descFrom h R = true → b ∈ R →
      b.message.block_number ≤ h := by
  intro R
  induction R with
  | nil => intro h b _ hmem; cases hmem
  | cons x rest ih =>
    intro h b hd hmem
    simp only [descFrom, Bool.and_eq_true, beq_iff_eq] at hd
    obtain ⟨hx, hrest⟩ := hd
    rcases List.mem_cons.mp hmem with hb | hb
    · rw [hb, hx]
    · have := ih (h - 1) b hrest hb
      omega

lemma findSome_below_none {α : Type} (a t : Int) (f : Block → Option α) :
    ∀ (R : List Block) (h : Int), descFrom h R = true → h ≤ a →
      R.findSome? (fun b => if inWindow (some a) (some t) b then f b else none) = none := by
  intro R
  induction R with
  | nil => intro h _ _; rfl
  | cons x rest ih =>
    intro h hd hha
    simp only [descFrom, Bool.and_eq_true, beq_iff_eq] at hd
    obtain ⟨hx, hrest⟩ := hd
    have hw : inWindow (some a) (some t) x = false := by
      simp only [inWindow, Bool.and_eq_false_iff]
      left
      simp only [decide_eq_false_iff_not]
      omega
    simp only [List.findSome?_cons, hw, if_false]
    exact ih (h - 1) hrest (by omega)

lemma scan_window_some {α : Type} (a t : Int) (f : Block → Option α) :
    ∀ (R : List Block) (h : Int), descFrom h R = true →
      scan_blocks (some a) f
          ((R.drop (h - t).toNat).take ((h - a).toNat - (h - t).toNat))
        = .ok (R.findSome? (fun b => if inWindow (some a) (some t) b then f b else none)) := by
  intro R
  induction R with
  | nil => intro h _; simp [scan_blocks]
  | cons b rest ih =>
    intro h hd
    simp only [descFrom, Bool.and_eq_true, beq_iff_eq] at hd
    obtain ⟨hb, hrest⟩ := hd
    by_cases hth : t < h
    · have h1 : (h - t).toNat = ((h - 1) - t).toNat + 1 := by omega
      have h2 : (h - a).toNat - (h - t).toNat
          = ((h - 1) - a).toNat - ((h - 1) - t).toNat := by omega
      rw [h2, h1, List.drop_succ_cons, ih (h - 1) hrest]
      have hw : inWindow (some a) (some t) b = false := by
        simp only [inWindow, Bool.and_eq_false_iff]
        right
        simp only [decide_eq_false_iff_not]
        omega
      simp [List.findSome?_cons, hw]
    · have h0 : (h - t).toNat = 0 := by omega
      by_cases hah : h ≤ a
      · have hq : (h - a).toNat - (h - t).toNat = 0 := by omega
        rw [hq, h0, List.drop_zero, List.take_zero]
        rw [findSome_below_none a t f (b :: rest) h
          (by simp [descFrom, hb, hrest]) hah]
        simp [scan_blocks]
      · have h3 : (h - a).toNat - (h - t).toNat
            = (((h - 1) - a).toNat - ((h - 1) - t).toNat) + 1 := by omega
        rw [h3, h0, List.drop_zero, List.take_succ_cons]
        have hA : MemoryBlockchain.assertLoop (some a) b = true := by
          simp only [MemoryBlockchain.assertLoop, hb, decide_eq_true_eq]
          omega
        have hw : inWindow (some a) (some t) b = true := by
          simp only [inWindow, hb, Bool.and_eq_true, decide_eq_true_eq]
          omega
        cases hfb : f b with
        | some v =>
          simp [scan_blocks, hA, hfb, List.findSome?_cons, hw]
        | none =>
          have hdrop : ((h - 1) - t).toNat = 0 := by omega
          have := ih (h - 1) hrest
          rw [hdrop, List.drop_zero, Nat.sub_zero] at this
          simp [scan_blocks, hA, hfb, List.findSome?_cons, hw, hdrop, this]

lemma scan_window_none {α : Type} (t : Int) (f : Block → Option α) :
    ∀ (R : List Block) (h : Int), descFrom h R = true →
      scan_blocks none f (R.drop (h - t).toNat)
        = .ok (R.findSome? (fun b => if inWindow none (some t) b then f b else none)) := by
  intro R
  induction R with
  | nil => intro h _; simp [scan_blocks]
  | cons b rest ih =>
    intro h hd
    simp only [descFrom, Bool.and_eq_true, beq_iff_eq] at hd
    obtain ⟨hb, hrest⟩ := hd
    by_cases hth : t < h
    · have h1 : (h - t).toNat = ((h - 1) - t).toNat + 1 := by omega
      rw [h1, List.drop_succ_cons, ih (h - 1) hrest]
      have hw : inWindow none (some t) b = false := by
        simp only [inWindow, Bool.true_and, decide_eq_false_iff_not]
        omega
      simp [List.findSome?_cons, hw]
    · have h0 : (h - t).toNat = 0 := by omega
      rw [h0, List.drop_zero]
      have hw : inWindow none (some t) b = true := by
        simp only [inWindow, hb, Bool.true_and, decide_eq_true_eq]
        omega
      cases hfb : f b with
      | some v =>
        simp [scan_blocks, MemoryBlockchain.assertLoop, hfb, List.findSome?_cons, hw]
      | none =>
        have hdrop : ((h - 1) - t).toNat = 0 := by omega
        have := ih (h - 1) hrest
        rw [hdrop, List.drop_zero] at this
        simp [scan_blocks, MemoryBlockchain.assertLoop, hfb, List.findSome?_cons, hw, this]

lemma drop_take_full {α : Type} (l : List α) (p : Nat) :
    (l.drop p).take (l.length - p) = l.drop p := by
  have hlen : (l.drop p).length = l.length - p := List.length_drop p l
  rw [← hlen, List.take_length]

lemma descFrom_append :
    ∀ (A : List Block) (b : Block) (h : Int),
      descFrom h (A ++ [b])
        = (descFrom h A && (b.message.block_number == h - A.length)) := by
  intro A
  induction A with
  | nil => intro b h; simp [descFrom]
  | cons x rest ih =>
    intro b h
    simp only [List.cons_append, List.append_eq, descFrom, ih b (h - 1), List.length_cons,
      Bool.and_assoc]
    have harg : h - 1 - (rest.length : Int) = h - ((rest.length + 1 : Nat) : Int) := by
      push_cast; ring
    rw [harg]

lemma contiguousFrom_reverse_desc :
    ∀ (l : List Block) (n : Int), contiguousFrom n l = true →
      descFrom (n + l.length - 1) l.reverse = true := by
  intro l
  induction l with
  | nil => intro n _; rfl
  | cons b rest ih =>
    intro n hc
    simp only [contiguousFrom, Bool.and_eq_true, beq_iff_eq] at hc
    obtain ⟨hb, hrest⟩ := hc
    have hres := ih (n + 1) hrest
    simp only [List.reverse_cons, descFrom_append, Bool.and_eq_true, beq_iff_eq,
      List.length_reverse, List.length_cons]
    constructor
    · have : (n + 1) + (rest.length : Int) - 1 = n + (rest.length + 1 : Nat) - 1 := by
        push_cast; ring
      rw [← this]
      exact hres
    · rw [hb]; push_cast; ring

lemma contiguousFrom_getLast :
    ∀ (l : List Block) (n : Int) (lb : Block), contiguousFrom n l = true →
      l.getLast? = some lb → lb.message.block_number = n + l.length - 1 := by
  intro l
  induction l with
  | nil => intro n lb _ hlast; cases hlast
  | cons b rest ih =>
    intro n lb hc hlast
    simp only [contiguousFrom, Bool.and_eq_true, beq_iff_eq] at hc
    obtain ⟨hb, hrest⟩ := hc
    cases rest with
    | nil =>
      simp only [List.getLast?_singleton, Option.some.injEq] at hlast
      rw [← hlast, hb]
      simp
    | cons c r =>
      rw [List.getLast?_cons_cons] at hlast
      have := ih (n + 1) lb hrest hlast
      rw [this]
      simp only [List.length_cons]
      push_cast
      ring

lemma contiguous_desc (l : List Block) (hb : Block)
    (hc : contiguous l = true) (hlast : l.getLast? = some hb) :
    descFrom hb.message.block_number l.reverse = true := by
  cases l with
  | nil => cases hlast
  | cons b0 rest =>
    have hfrom : contiguousFrom b0.message.block_number (b0 :: rest) = true := hc
    have hnum := contiguousFrom_getLast (b0 :: rest) b0.message.block_number hb hfrom hlast
    rw [hnum]
    exact contiguousFrom_reverse_desc (b0 :: rest) b0.message.block_number hfrom

lemma contiguous_get_find :
    ∀ (l : List Block) (n0 n : Int), contiguousFrom n0 l = true →
      n0 ≤ n → n < n0 + l.length →
      ∃ b, l.get? (n - n0).toNat = some b ∧
        l.find? (fun x => x.message.block_number == n) = some b := by
  intro l
  induction l with
  | nil => intro n0 n _ hlo hhi; simp at hhi; omega
  | cons b rest ih =>
    intro n0 n hc hlo hhi
    simp only [contiguousFrom, Bool.and_eq_true, beq_iff_eq] at hc
    obtain ⟨hb, hrest⟩ := hc
    by_cases heq : n = n0
    · refine ⟨b, ?_, ?_⟩
      · have : (n - n0).toNat = 0 := by omega
        rw [this]; rfl
      · rw [List.find?_cons_of_pos]
        simp [hb, heq]
    · have hlo2 : n0 + 1 ≤ n := by omega
      have hhi2 : n < n0 + 1 + rest.length := by
        simp only [List.length_cons] at hhi
        push_cast at hhi ⊢
        omega
      obtain ⟨x, hget, hfind⟩ := ih (n0 + 1) n hrest hlo2 hhi2
      refine ⟨x, ?_, ?_⟩
      · have : (n - n0).toNat = (n - (n0 + 1)).toNat + 1 := by omega
        rw [this]
        simpa using hget
      · rw [List.find?_cons_of_neg]
        · exact hfind
        · simp [hb]; omega

lemma gen_scan_window {α : Type} (chain : MemoryBlockchain) (arf : AccountRootFile)
    (target : Option Int) (f : Block → Option α)
    (hc : contiguous chain.blocks = true)
    (harf : MemoryBlockchain.get_closest_account_root_file chain target = some arf)
    (hneg : MemoryBlockchain.startNeg target = false)
    (hv : validTarget chain target = true)
    (hs : snapshotOk chain target = true) :
    (MemoryBlockchain.get_blocks_until_account_root_file chain target >>= fun p =>
        scan_blocks p.1 f p.2)
      = .ok (chain.blocks.reverse.findSome?
          (fun b => if inWindow arf.last_block_number target b then f b else none)) := by
  cases hlast : chain.blocks.getLast? with
  | none =>
    have hnil : chain.blocks = [] := List.getLast?_eq_none_iff.mp hlast
    rw [MemoryBlockchain.get_blocks_until_account_root_file]
    rw [hneg]
    simp only [Bool.false_eq_true, if_false, hlast, hnil]
    rfl
  | some hb =>
    have hdesc : descFrom hb.message.block_number chain.blocks.reverse = true :=
      contiguous_desc chain.blocks hb hc hlast
    set hbn := hb.message.block_number with hhbn
    set R := chain.blocks.reverse with hR
    cases target with
    | none =>
      cases harf_bn : arf.last_block_number with
      | none =>
        have hgen : MemoryBlockchain.get_blocks_until_account_root_file chain none
            = .ok (none, R) := by
          rw [MemoryBlockchain.get_blocks_until_account_root_file]
          simp only [MemoryBlockchain.startNeg, Bool.false_eq_true, if_false, hlast, harf,
            harf_bn, MemoryBlockchain.assert72, if_true]
          have hz : ((0 : Int) < 0 || (0 : Int) + ((chain.blocks.length : Int) - 0) < 0) = false := by
            simp
          rw [hz]
          simp only [Bool.false_eq_true, if_false]
          congr 1
          congr 1
          have e1 : ((0 : Int) + ((chain.blocks.length : Int) - 0)).toNat - (0 : Int).toNat
              = chain.blocks.length := by omega
          rw [e1]
          have e2 : (0 : Int).toNat = 0 := rfl
          rw [e2, List.drop_zero, ← List.length_reverse chain.blocks, ← hR, List.take_length]
        rw [hgen]
        show scan_blocks none f R = _
        rw [scan_blocks_none]
        exact congrArg Except.ok (findSome_congr _ _ R (fun b _ => by simp [inWindow]))
      | some a =>
        have ha_le : a ≤ hbn := by
          have := hs
          simp only [snapshotOk, harf, harf_bn, hlast, decide_eq_true_eq] at this
          exact this
        have hgen : MemoryBlockchain.get_blocks_until_account_root_file chain none
            = .ok (some a, (R.drop ((hbn - hbn).toNat)).take ((hbn - a).toNat - (hbn - hbn).toNat)) := by
          rw [MemoryBlockchain.get_blocks_until_account_root_file]
          simp only [MemoryBlockchain.startNeg, Bool.false_eq_true, if_false, hlast, harf,
            harf_bn, MemoryBlockchain.assert72, if_true]
          have hz : ((0 : Int) < 0 || (0 : Int) + (hbn - a - 0) < 0) = false := by
            simp only [Bool.or_eq_false_iff, decide_eq_false_iff_not]
            omega
          rw [hz]
          simp only [Bool.false_eq_true, if_false]
          congr 1
          congr 1
          have e1 : ((0 : Int) + (hbn - a - 0)).toNat - (0 : Int).toNat
              = (hbn - a).toNat - (hbn - hbn).toNat := by omega
          have e2 : (0 : Int).toNat = (hbn - hbn).toNat := by omega
          rw [e1, e2]
        rw [hgen]
        show scan_blocks (some a) f _ = _
        rw [scan_window_some a hbn f R hbn hdesc]
        refine congrArg Except.ok (findSome_congr _ _ R (fun b hmem => ?_))
        have hble := mem_desc_le R hbn b hdesc hmem
        simp [inWindow, hble]
    | some t =>
      have ht0 : 0 ≤ t := by
        simp only [MemoryBlockchain.startNeg, decide_eq_false_iff_not] at hneg
        omega
      have ht_le : t ≤ hbn := by
        simp only [validTarget, hlast, Bool.and_eq_true, decide_eq_true_eq] at hv
        exact hv.2
      cases harf_bn : arf.last_block_number with
      | none =>
        have hgen : MemoryBlockchain.get_blocks_until_account_root_file chain (some t)
            = .ok (none, R.drop ((hbn - t).toNat)) := by
          rw [MemoryBlockchain.get_blocks_until_account_root_file]
          simp only [MemoryBlockchain.startNeg, decide_eq_true_eq, hlast, harf, harf_bn,
            MemoryBlockchain.assert72, if_true]
          have hnt : ¬ (t < 0) := by omega
          rw [if_neg (by simpa using hnt)]
          have hz : ((hbn - t < 0 : Prop) → False) := by omega
          have hz2 : (decide (hbn - t < 0) || decide (hbn - t + ((chain.blocks.length : Int) - (hbn - t)) < 0)) = false := by
            simp only [Bool.or_eq_false_iff, decide_eq_false_iff_not]
            constructor
            · omega
            · have : hbn - t + ((chain.blocks.length : Int) - (hbn - t)) = (chain.blocks.length : Int) := by ring
              rw [this]
              omega
          rw [hz2]
          simp only [Bool.false_eq_true, if_false]
          congr 1
          congr 1
          have e1 : (hbn - t + ((chain.blocks.length : Int) - (hbn - t))).toNat - (hbn - t).toNat
              = chain.blocks.length - (hbn - t).toNat := by omega
          rw [e1, ← List.length_reverse chain.blocks, ← hR, drop_take_full]
        rw [hgen]
        show scan_blocks none f _ = _
        rw [scan_window_none t f R hbn hdesc]
      | some a =>
        have ha_le : a ≤ t := by
          have hp := List.find?_some harf
          simp only [harf_bn, decide_eq_true_eq] at hp
          exact hp
        have hgen : MemoryBlockchain.get_blocks_until_account_root_file chain (some t)
            = .ok (some a, (R.drop ((hbn - t).toNat)).take ((hbn - a).toNat - (hbn - t).toNat)) := by
          rw [MemoryBlockchain.get_blocks_until_account_root_file]
          simp only [MemoryBlockchain.startNeg, hlast, harf, harf_bn,
            MemoryBlockchain.assert72, if_true]
          have hnt : ¬ (t < 0) := by omega
          rw [if_neg (by simpa using hnt)]
          rw [if_pos (by simpa using ha_le)]
          have hz2 : (decide (hbn - t < 0) || decide (hbn - t + (hbn - a - (hbn - t)) < 0)) = false := by
            simp only [Bool.or_eq_false_iff, decide_eq_false_iff_not]
            constructor
            · omega
            · have : hbn - t + (hbn - a - (hbn - t)) = hbn - a := by ring
              rw [this]
              omega
          rw [hz2]
          simp only [Bool.false_eq_true, if_false]
          congr 1
          congr 1
          have e1 : (hbn - t + (hbn - a - (hbn - t))).toNat - (hbn - t).toNat
              = (hbn - a).toNat - (hbn - t).toNat := by omega
          rw [e1]
        rw [hgen]
        show scan_blocks (some a) f _ = _
        rw [scan_window_some a t f R hbn hdesc]

/-- C2: for every account and every valid target block number (absent
meaning head, `-1` meaning before block 0), the resolved balance equals
the balance recorded for the account in the newest block of the scan
window (from the target point backward down to, but excluding, the closest
snapshot's last block number) whose updated account states mention the
account; when no window block mentions it, the closest snapshot's recorded
value; for block number `-1` no block is consulted at all. -/
theorem C2_balance_resolution (chain : MemoryBlockchain) (account : String)
    (target : Option Int)
    (hc : contiguous chain.blocks = true)
    (hv : validTarget chain target = true)
    (hs : snapshotOk chain target = true) :
    MemoryBlockchain.get_account_balance chain account target
      = .ok (balanceResolutionSpec chain account target) := by
  cases harf : MemoryBlockchain.get_closest_account_root_file chain target with
  | none =>
    rw [snapshotOk, harf] at hs
    cases hs
  | some arf =>
    cases target with
    | none =>
      have hneg : MemoryBlockchain.startNeg none = false := rfl
      have hfb0 := gen_scan_window chain arf none
        (fun (b : Block) =>
          Option.map (fun (s : AccountState) => s.balance) (b.message.get_account_state account))
        hc harf hneg hv hs
      have hfb : MemoryBlockchain.get_balance_from_block chain account none
          = .ok (chain.blocks.reverse.findSome? (fun b =>
              if inWindow arf.last_block_number none b then
                Option.map (fun (s : AccountState) => s.balance)
                  (b.message.get_account_state account)
              else none)) := hfb0
      simp only [MemoryBlockchain.get_account_balance, Bool.false_eq_true, if_false]
      simp only [balanceResolutionSpec, harf]
      cases hW : chain.blocks.reverse.findSome? (fun b =>
          if inWindow arf.last_block_number none b then
            Option.map (fun (s : AccountState) => s.balance)
              (b.message.get_account_state account)
          else none) with
      | some v =>
        rw [hW] at hfb
        rw [hfb]
        rfl
      | none =>
        rw [hW] at hfb
        rw [hfb]
        show MemoryBlockchain.get_balance_from_account_root_file chain account none = _
        rw [MemoryBlockchain.get_balance_from_account_root_file, harf]
        rfl
    | some t =>
      have ht1 : -1 ≤ t := by
        rw [validTarget, Bool.and_eq_true] at hv
        have := hv.1
        rw [decide_eq_true_eq] at this
        exact this
      have hbad : decide (t < -1) = false := by
        rw [decide_eq_false_iff_not]
        omega
      by_cases ht : t = -1
      · subst ht
        have hfb : MemoryBlockchain.get_balance_from_block chain account (some (-1))
            = .ok none := by
          show (MemoryBlockchain.get_blocks_until_account_root_file chain (some (-1)) >>=
            fun p => scan_blocks p.1
              (fun b => Option.map (fun (s : AccountState) => s.balance)
                (b.message.get_account_state account)) p.2) = _
          rw [MemoryBlockchain.get_blocks_until_account_root_file]
          rfl
        simp only [MemoryBlockchain.get_account_balance, hbad, Bool.false_eq_true, if_false]
        rw [hfb]
        show MemoryBlockchain.get_balance_from_account_root_file chain account (some (-1)) = _
        rw [MemoryBlockchain.get_balance_from_account_root_file, harf]
        simp only [balanceResolutionSpec, harf]
        rfl
      · have hneg : MemoryBlockchain.startNeg (some t) = false := by
          rw [MemoryBlockchain.startNeg, decide_eq_false_iff_not]
          omega
        have hfb0 := gen_scan_window chain arf (some t)
          (fun (b : Block) =>
            Option.map (fun (s : AccountState) => s.balance) (b.message.get_account_state account))
          hc harf hneg hv hs
        have hfb : MemoryBlockchain.get_balance_from_block chain account (some t)
            = .ok (chain.blocks.reverse.findSome? (fun b =>
                if inWindow arf.last_block_number (some t) b then
                  Option.map (fun (s : AccountState) => s.balance)
                    (b.message.get_account_state account)
                else none)) := hfb0
        have hne : ((some t : Option Int) == some (-1)) = false := by
          simp only [beq_eq_false_iff_ne, ne_eq, Option.some.injEq]
          omega
        simp only [MemoryBlockchain.get_account_balance, hbad, Bool.false_eq_true, if_false]
        simp only [balanceResolutionSpec, harf, hne]
        cases hW : chain.blocks.reverse.findSome? (fun b =>
            if inWindow arf.last_block_number (some t) b then
              Option.map (fun (s : AccountState) => s.balance)
                (b.message.get_account_state account)
            else none) with
        | some v =>
          rw [hW] at hfb
          rw [hfb]
          rfl
        | none =>
          rw [hW] at hfb
          rw [hfb]
          show MemoryBlockchain.get_balance_from_account_root_file chain account (some t) = _
          rw [MemoryBlockchain.get_balance_from_account_root_file, harf]
          rfl

/-- Witness for C2: the concrete two-block chain, account `a1`, target
block 0, with every hypothesis discharged by evaluation. -/
theorem C2_balance_resolution_witness :
    contiguous chainW.blocks = true ∧ validTarget chainW (some 0) = true ∧
      snapshotOk chainW (some 0) = true ∧
      MemoryBlockchain.get_account_balance chainW "a1" (some 0)
        = .ok (balanceResolutionSpec chainW "a1" (some 0)) :=
  ⟨by decide, by decide, by decide,
    C2_balance_resolution chainW "a1" (some 0) (by decide) (by decide) (by decide)⟩

lemma bind_assoc_except {ε α β γ : Type} (m : Except ε α) (f : α → Except ε β)
    (g : β → Except ε γ) : (m >>= f) >>= g = m >>= fun x => f x >>= g := by
  cases m <;> rfl

/-- C4: for every account, head-relative lock resolution returns the lock
of the newest block (scanning newest-to-oldest down to, but excluding, the
closest snapshot's last block number) whose entry for the account carries
a non-empty lock, skipping matching entries with an absent lock; when no
such block exists, the closest snapshot's lock for the account. -/
theorem C4_lock_resolution (chain : MemoryBlockchain) (account : String)
    (hc : contiguous chain.blocks = true)
    (hs : snapshotOk chain none = true) :
    MemoryBlockchain.get_account_balance_lock chain account
      = .ok (lockResolutionSpec chain account) := by
  cases harf : MemoryBlockchain.get_closest_account_root_file chain none with
  | none =>
    rw [snapshotOk, harf] at hs
    cases hs
  | some arf =>
    have hneg : MemoryBlockchain.startNeg none = false := rfl
    have hv : validTarget chain none = true := rfl
    have hfb0 := gen_scan_window chain arf none
      (fun (b : Block) => MemoryBlockchain.lockOf (b.message.get_account_state account))
      hc harf hneg hv hs
    have hstep : MemoryBlockchain.get_account_balance_lock chain account
        = ((MemoryBlockchain.get_blocks_until_account_root_file chain none >>= fun p =>
            scan_blocks p.1
              (fun b => MemoryBlockchain.lockOf (b.message.get_account_state account)) p.2) >>=
          fun r =>
            match r with
            | some l => .ok l
            | none =>
              match MemoryBlockchain.get_closest_account_root_file chain none with
              | none => .error .assertionError
              | some arf2 => .ok (arf2.get_balance_lock account)) :=
      (bind_assoc_except _ _ _).symm
    rw [hstep, hfb0]
    simp only [lockResolutionSpec, harf]
    cases hW : chain.blocks.reverse.findSome? (fun b =>
        if inWindow arf.last_block_number none b then
          MemoryBlockchain.lockOf (b.message.get_account_state account)
        else none) with
    | some l => rfl
    | none => rfl

/-- Witness for C4: the concrete two-block chain and account `a1` (whose
newest signer entry is in block 1). -/
theorem C4_lock_resolution_witness :
    contiguous chainW.blocks = true ∧ snapshotOk chainW none = true ∧
      MemoryBlockchain.get_account_balance_lock chainW "a1"
        = .ok (lockResolutionSpec chainW "a1") :=
  ⟨by decide, by decide, C4_lock_resolution chainW "a1" (by decide) (by decide)⟩

/-- C8: for every account and every block number strictly greater than the
head block's number (non-empty store), balance resolution rejects the
request with an explicit error (the `islice` `ValueError` raised when the
generator first runs) rather than silently returning the snapshot value. -/
theorem C8_future_target_rejected (chain : MemoryBlockchain) (account : String) (t : Int)
    (hb : Block) (arf : AccountRootFile)
    (hlast : chain.blocks.getLast? = some hb)
    (hfuture : hb.message.block_number < t)
    (ht0 : 0 ≤ t)
    (harf : MemoryBlockchain.get_closest_account_root_file chain (some t) = some arf) :
    MemoryBlockchain.get_account_balance chain account (some t)
      = .error (.valueError
          "Indices for islice() must be None or an integer: 0 <= x <= sys.maxsize.") := by
  have hbad : decide (t < -1) = false := by
    rw [decide_eq_false_iff_not]
    omega
  have hoff : decide (hb.message.block_number - t < 0) = true := by
    rw [decide_eq_true_eq]
    omega
  have hgen : MemoryBlockchain.get_blocks_until_account_root_file chain (some t)
      = .error (.valueError
          "Indices for islice() must be None or an integer: 0 <= x <= sys.maxsize.") := by
    cases harf_bn : arf.last_block_number with
    | none =>
      rw [MemoryBlockchain.get_blocks_until_account_root_file]
      simp only [MemoryBlockchain.startNeg, hlast, harf, harf_bn, MemoryBlockchain.assert72,
        if_true, hoff, Bool.true_or]
      rw [if_neg (by simp only [decide_eq_true_eq]; omega)]
    | some a =>
      have hp := List.find?_some harf
      rw [harf_bn] at hp
      simp only [decide_eq_true_eq] at hp
      rw [MemoryBlockchain.get_blocks_until_account_root_file]
      simp only [MemoryBlockchain.startNeg, hlast, harf, harf_bn, MemoryBlockchain.assert72,
        hoff, Bool.true_or]
      rw [if_neg (by simp only [decide_eq_true_eq]; omega)]
      rw [if_pos (by simp only [decide_eq_true_eq]; omega)]
      rfl
  have hfbe : MemoryBlockchain.get_balance_from_block chain account (some t)
      = .error (.valueError
          "Indices for islice() must be None or an integer: 0 <= x <= sys.maxsize.") := by
    show (MemoryBlockchain.get_blocks_until_account_root_file chain (some t) >>= fun p =>
      scan_blocks p.1
        (fun b => Option.map (fun (s : AccountState) => s.balance)
          (b.message.get_account_state account)) p.2) = _
    rw [hgen]
    rfl
  simp only [MemoryBlockchain.get_account_balance, hbad, Bool.false_eq_true, if_false]
  rw [hfbe]
  rfl

/-- Witness for C8: the concrete two-block chain (head number 1) queried
at block number 5. -/
theorem C8_future_target_rejected_witness :
    chainW.blocks.getLast? = some block1W ∧ block1W.message.block_number < 5 ∧
      MemoryBlockchain.get_closest_account_root_file chainW (some 5) = some genesisArfW ∧
      MemoryBlockchain.get_account_balance chainW "a1" (some 5)
        = .error (.valueError
            "Indices for islice() must be None or an integer: 0 <= x <= sys.maxsize.") :=
  ⟨by decide, by decide, by decide,
    C8_future_target_rejected chainW "a1" 5 block1W genesisArfW
      (by decide) (by decide) (by decide) (by decide)⟩

lemma byNumber_eq_spec (chain : MemoryBlockchain)
    (hc : contiguous chain.blocks = true) (n : Int) :
    MemoryBlockchain.get_block_by_number chain n = get_block_by_number_spec chain n := by
  rw [MemoryBlockchain.get_block_by_number, get_block_by_number_spec]
  by_cases hneg : n < 0
  · rw [if_pos hneg, if_pos hneg]
  · rw [if_neg hneg, if_neg hneg]
    cases hbl : chain.blocks with
    | nil => rfl
    | cons b0 rest =>
      have hne : (b0 :: rest) ≠ [] := by simp
      cases hlb : (b0 :: rest).getLast? with
      | none => exact absurd (List.getLast?_eq_none_iff.mp hlb) hne
      | some lb =>
        have hcf : contiguousFrom b0.message.block_number (b0 :: rest) = true := by
          rw [hbl] at hc
          exact hc
        have hlbn : lb.message.block_number
            = b0.message.block_number + (b0 :: rest).length - 1 :=
          contiguousFrom_getLast _ _ _ hcf hlb
        simp only [hlb, List.head?_cons]
        by_cases hhi : lb.message.block_number < n
        · simp only [if_pos hhi]
        · simp only [if_neg hhi]
          push_neg at hneg hhi
          by_cases hlo : n < b0.message.block_number
          · have hpy : pyIndex (b0 :: rest) (n - lb.message.block_number - 1) = none := by
              rw [pyIndex]
              rw [if_neg (by omega)]
              rw [if_neg (by
                simp only [List.length_cons] at hlbn ⊢
                push_cast at hlbn ⊢
                omega)]
            simp only [hpy, if_pos hlo]
          · push_neg at hlo
            have hlen : n < b0.message.block_number + ((b0 :: rest).length : Int) := by
              simp only [List.length_cons] at hlbn ⊢
              push_cast at hlbn ⊢
              omega
            obtain ⟨b, hget, hfind⟩ :=
              contiguous_get_find (b0 :: rest) b0.message.block_number n hcf hlo hlen
            have hpy : pyIndex (b0 :: rest) (n - lb.message.block_number - 1) = some b := by
              rw [pyIndex]
              rw [if_neg (by omega)]
              rw [if_pos (by
                simp only [List.length_cons] at hlbn ⊢
                push_cast at hlbn ⊢
                omega)]
              have harg : (((b0 :: rest).length : Int) + (n - lb.message.block_number - 1)).toNat
                  = (n - b0.message.block_number).toNat := by
                simp only [List.length_cons] at hlbn ⊢
                push_cast at hlbn ⊢
                omega
              rw [harg]
              exact hget
            simp only [hpy, hfind, if_neg (by omega : ¬ n < b0.message.block_number)]

/-- C5: block-by-number lookup behaves as specified — negative numbers are
a caller `ValueError`; an empty store returns none for every `n ≥ 0`; `n`
above the head returns none; `n` below the earliest retained block of a
non-empty store fails with `MissingEarlierBlocksError` (distinct from the
none result); otherwise the stored block whose number equals `n` is
returned. -/
theorem C5_block_lookup (chain : MemoryBlockchain)
    (hc : contiguous chain.blocks = true) (n : Int) :
    MemoryBlockchain.get_block_by_number chain n = get_block_by_number_spec chain n :=
  byNumber_eq_spec chain hc n

/-- Witness for C5: the concrete two-block chain looked up at block 0. -/
theorem C5_block_lookup_witness :
    contiguous chainW.blocks = true ∧
      MemoryBlockchain.get_block_by_number chainW 0 = get_block_by_number_spec chainW 0 :=
  ⟨by decide, C5_block_lookup chainW (by decide) 0⟩

/-- C6 (amended): for every block message, timestamp validation requires a
set, naive datetime; for block numbers `N ≥ 1` the timestamp must exceed
the reference point — block `N-1`'s timestamp when the by-number lookup
returns it, otherwise (lookup returns none: `N-1` beyond the head or empty
store) the `last_block_timestamp` of a non-initial snapshot covering
exactly block `N-1`; when `N-1` is below the earliest retained block of a
non-empty store the lookup's `MissingEarlierBlocksError` propagates
instead of any snapshot fallback; for `N = 0` only the naive-datetime
checks apply. -/
theorem C6_timestamp_amended (msg : BlockMessage) (chain : MemoryBlockchain)
    (hc : contiguous chain.blocks = true) :
    BlockMessage.validate_timestamp msg chain = validate_timestamp_spec msg chain := by
  simp only [BlockMessage.validate_timestamp, validate_timestamp_spec]
  rw [byNumber_eq_spec chain hc (msg.block_number - 1)]

/-- Witness for C6 (amended): the concrete two-block chain validating
block 1's message. -/
theorem C6_timestamp_amended_witness :
    contiguous chainW.blocks = true ∧
      BlockMessage.validate_timestamp block1W.message chainW
        = validate_timestamp_spec block1W.message chainW :=
  ⟨by decide, C6_timestamp_amended block1W.message chainW (by decide)⟩

/-- C6 counterexample: the claim as frozen fails twice on the code.  A
block-0 message passes timestamp validation although no snapshot covers
block `-1` (the claim demands failure for every block lacking a
reference).  And on a pruned chain whose snapshot covers exactly block 0,
validating retained block 1 raises `MissingEarlierBlocksError` although
the claim's listed failure conditions are all absent (block 0 is merely
not retained, a snapshot exactly covers it, and the timestamp exceeds the
snapshot's). -/
theorem C6_timestamp_counterexample :
    BlockMessage.validate_timestamp msgT0 chainT0 = .ok ()
    ∧ (∀ arf ∈ chainT0.account_root_files, arf.last_block_number ≠ some (-1))
    ∧ msgT0.block_number = 0 ∧ msgT0.timestamp = .dt 0 none
    ∧ BlockMessage.validate_timestamp blockP1.message chainPruned
        = .error .missingEarlierBlocksError
    ∧ blockP1.message.block_number = 1
    ∧ (∃ arf ∈ chainPruned.account_root_files,
        arf.last_block_number = some 0 ∧ arf.last_block_timestamp = some 5)
    ∧ blockP1.message.timestamp = .dt 10 none :=
  ⟨by decide, by decide, by decide, by decide, by decide, by decide, by decide, by decide⟩

lemma runValidations_eq (bv : Block → Except PyErr Unit) :
    ∀ l : List Block,
      runValidations bv l
        = (match first_block_failure bv l with
           | some e => .error e
           | none => .ok ()) := by
  intro l
  induction l with
  | nil => rfl
  | cons b rest ih =>
    show (bv b >>= fun _ => runValidations bv rest) = _
    cases hb : bv b with
    | error e =>
      simp only [first_block_failure, List.findSome?_cons, hb]
      rfl
    | ok u =>
      simp only [first_block_failure, List.findSome?_cons, hb]
      show runValidations bv rest = _
      exact ih

/-- C7 (amended): chain validation fails fatally when the snapshot
sequence is empty; otherwise it delegates every block of the store, in
order, to per-block validation — regardless of the requested window, whose
offset and limit arguments `validate` drops — propagating the first
per-block failure, and when every delegated block validates it still
fails, with `NotImplementedError` (the orchestration is explicitly
unfinished in the source). -/
theorem C7_validate_amended (bv : Block → Except PyErr Unit) (chain : MemoryBlockchain)
    (off lim : Option Nat) :
    MemoryBlockchain.validate bv chain off lim
      = (if chain.account_root_files.isEmpty
         then .error (.validationError "Blockchain must contain at least one account root file")
         else
           match first_block_failure bv chain.blocks with
           | some e => .error e
           | none => .error .notImplementedError) := by
  show (MemoryBlockchain.validate_account_root_files chain >>= fun _ =>
    MemoryBlockchain.validate_blocks bv chain none none) = _
  rw [MemoryBlockchain.validate_account_root_files]
  by_cases hemp : chain.account_root_files.isEmpty
  · rw [if_pos hemp, if_pos hemp]
    rfl
  · rw [if_neg hemp, if_neg hemp]
    show MemoryBlockchain.validate_blocks bv chain none none = _
    show (runValidations bv chain.blocks >>= fun _ =>
      (.error .notImplementedError : Except PyErr Unit)) = _
    rw [runValidations_eq bv chain.blocks]
    cases hf : first_block_failure bv chain.blocks with
    | some e => rfl
    | none => rfl

/-- C7 counterexample: with a non-empty snapshot store, a two-block chain
and the window `offset = 1, limit = 1`, chain validation still delegates
block 0 (outside the requested window) and fails with block 0's error,
although every block inside the window validates; the claim's "validates
exactly the blocks at positions [offset, offset+limit) ... and no others"
is therefore false on the code. -/
theorem C7_validate_counterexample :
    chainW.account_root_files ≠ []
    ∧ MemoryBlockchain.validate bvW chainW (some 1) (some 1)
        = .error (.validationError "block zero invalid")
    ∧ runValidations bvW (MemoryBlockchain.validate_blocks_slice chainW.blocks (some 1) (some 1))
        = .ok () :=
  ⟨by decide, by decide, by decide⟩

lemma ok_bind {ε α β : Type} (a : α) (f : α → Except ε β) :
    (Except.ok a >>= f) = f a := rfl

lemma error_bind {ε α β : Type} (e : ε) (f : α → Except ε β) :
    (Except.error e >>= f : Except ε β) = Except.error e := rfl

/-- C1: for every entry (account, state) of a block's updated account
states, with `prior` the account's balance resolved as of block `N-1`:
when the account is the request's signer, validation succeeds exactly when
`prior` is present and strictly positive and the declared balance equals
`prior - sentAmount`; for any other account, exactly when the declared
balance equals `prior + recipientAmount(account)`; and a balance mismatch
produces a validation error naming the account and the expected vs. the
actual value. -/
theorem C1_balance_rule (msg : BlockMessage) (chain : MemoryBlockchain)
    (account : String) (st : AccountState) (req : CoinTransferSignedChangeRequest)
    (pOpt : Option Int)
    (hreq : msg.signed_change_request = some req)
    (hres : MemoryBlockchain.get_account_balance chain account (some (msg.block_number - 1))
      = .ok pOpt) :
    (BlockMessage.validate_updated_account_balance msg chain account st (account == req.signer)
        = .ok ()
      ↔ ∃ p, pOpt = some p ∧
          (if account = req.signer
           then 0 < p ∧ st.balance = p - req.get_sent_amount
           else st.balance = p + req.get_recipient_amount account))
    ∧ (∀ p, pOpt = some p →
        (account = req.signer → 0 < p) →
        st.balance ≠ (if account = req.signer then p - req.get_sent_amount
                      else p + req.get_recipient_amount account) →
        BlockMessage.validate_updated_account_balance msg chain account st (account == req.signer)
          = .error (.validationError
              ((account_subject (account == req.signer) account ++ " balance")
                ++ " must be equal to "
                ++ toString (if account = req.signer then p - req.get_sent_amount
                             else p + req.get_recipient_amount account)
                ++ " (got " ++ toString st.balance ++ ")"))) := by
  have hsent : msg.get_sent_amount = .ok req.get_sent_amount := by
    rw [BlockMessage.get_sent_amount, hreq]
  have hrec : msg.get_recipient_amount account = .ok (req.get_recipient_amount account) := by
    rw [BlockMessage.get_recipient_amount, hreq]
  by_cases hsig : account = req.signer
  · have hbeq : (account == req.signer) = true := by
      rw [beq_iff_eq]
      exact hsig
    rw [hbeq]
    simp only [if_pos hsig]
    cases pOpt with
    | none =>
      have hrun : BlockMessage.validate_updated_account_balance msg chain account st true
          = .error (.validationError
              ("sender account " ++ account ++ " current balance" ++ " must be greater than zero")) := by
        simp only [BlockMessage.validate_updated_account_balance, hres, ok_bind]
        rfl
      rw [hrun]
      constructor
      · simp
      · intro p hpo
        cases hpo
    | some p0 =>
      have hrun : BlockMessage.validate_updated_account_balance msg chain account st true
          = (if 0 < p0 then
              validate_exact_value (account_subject true account ++ " balance") st.balance
                (p0 - req.get_sent_amount)
            else .error (.validationError
              ("sender account " ++ account ++ " current balance" ++ " must be greater than zero"))) := by
        simp only [BlockMessage.validate_updated_account_balance, hres, ok_bind,
          validate_greater_than_zero]
        by_cases hp : 0 < p0
        · rw [if_pos hp, if_pos hp]
          simp only [ok_bind, hsent]
          rfl
        · rw [if_neg hp, if_neg hp]
          rfl
      rw [hrun]
      constructor
      · by_cases hp : 0 < p0
        · rw [if_pos hp, validate_exact_value]
          by_cases hbal : st.balance = p0 - req.get_sent_amount
          · rw [if_pos hbal]
            simp [hp, hbal]
          · rw [if_neg hbal]
            simp [hp, hbal]
        · rw [if_neg hp]
          simp [hp]
      · intro p hpo hpos hneq
        injection hpo with hpp
        subst hpp
        rw [if_pos (hpos hsig), validate_exact_value, if_neg hneq]
  · have hbeq : (account == req.signer) = false := by
      rw [beq_eq_false_iff_ne]
      exact hsig
    rw [hbeq]
    simp only [if_neg hsig]
    cases pOpt with
    | none =>
      have hrun : BlockMessage.validate_updated_account_balance msg chain account st false
          = .error .typeError := by
        simp only [BlockMessage.validate_updated_account_balance, hres, ok_bind,
          Bool.false_eq_true, if_false, hrec]
      rw [hrun]
      constructor
      · simp
      · intro p hpo
        cases hpo
    | some p0 =>
      have hrun : BlockMessage.validate_updated_account_balance msg chain account st false
          = validate_exact_value (account_subject false account ++ " balance") st.balance
              (p0 + req.get_recipient_amount account) := by
        simp only [BlockMessage.validate_updated_account_balance, hres, ok_bind,
          Bool.false_eq_true, if_false, hrec]
      rw [hrun]
      constructor
      · rw [validate_exact_value]
        by_cases hbal : st.balance = p0 + req.get_recipient_amount account
        · rw [if_pos hbal]
          simp [hbal]
        · rw [if_neg hbal]
          simp [hbal]
      · intro p hpo _ hneq
        injection hpo with hpp
        subst hpp
        rw [validate_exact_value, if_neg hneq]

/-- Witness for C1: block 0's sender entry for `a1` (prior balance 100,
declared balance 70 with sent amount 30), resolved against the concrete
chain at target block `-1`. -/
theorem C1_balance_rule_witness :
    block0W.message.signed_change_request = some reqW ∧
      MemoryBlockchain.get_account_balance chainW "a1"
          (some (block0W.message.block_number - 1)) = .ok (some 100) ∧
      (BlockMessage.validate_updated_account_balance block0W.message chainW "a1"
          ⟨70, some (make_balance_lock reqW)⟩ ("a1" == reqW.signer) = .ok ()
        ↔ ∃ p, (some 100 : Option Int) = some p ∧
            (if "a1" = reqW.signer
             then 0 < p ∧ (70 : Int) = p - reqW.get_sent_amount
             else (70 : Int) = p + reqW.get_recipient_amount "a1")) :=
  ⟨by decide, by decide,
    (C1_balance_rule block0W.message chainW "a1" ⟨70, some (make_balance_lock reqW)⟩ reqW
      (some 100) (by decide) (by decide)).1⟩

/-- C3: for every entry (account, state) of a block's updated account
states, when the account equals the signed change request's signer the
entry's lock must be a non-empty string exactly equal to the deterministic
lock rotation of the signed request (validation succeeds exactly then),
and for every other account the lock must be absent. -/
theorem C3_lock_rule (msg : BlockMessage) (account : String) (st : AccountState)
    (req : CoinTransferSignedChangeRequest)
    (hreq : msg.signed_change_request = some req) :
    make_balance_lock req ≠ ""
    ∧ (BlockMessage.validate_updated_account_balance_lock msg account st (account == req.signer)
        = .ok ()
      ↔ (if account = req.signer
         then st.balance_lock = some (make_balance_lock req)
         else st.balance_lock = none)) := by
  have hmbl : make_balance_lock req ≠ "" := by
    intro hcon
    have hlen := congrArg String.length hcon
    rw [make_balance_lock, String.length_append, String.length_append] at hlen
    have h8 : ("rotated:" : String).length = 8 := rfl
    have h0 : ("" : String).length = 0 := rfl
    rw [h8, h0] at hlen
    omega
  refine ⟨hmbl, ?_⟩
  by_cases hsig : account = req.signer
  · have hbeq : (account == req.signer) = true := by
      rw [beq_iff_eq]
      exact hsig
    rw [hbeq]
    simp only [if_pos hsig]
    cases hlk : st.balance_lock with
    | none =>
      have hrun : BlockMessage.validate_updated_account_balance_lock msg account st true
          = .error (.validationError
              ((account_subject true account ++ " balance_lock") ++ " must be set")) := by
        simp only [BlockMessage.validate_updated_account_balance_lock, hreq, hlk,
          validate_not_empty]
        rfl
      rw [hrun]
      simp
    | some l =>
      by_cases hl : l = ""
      · subst hl
        have hrun : BlockMessage.validate_updated_account_balance_lock msg account st true
            = .error (.validationError
                ((account_subject true account ++ " balance_lock") ++ " must be set")) := by
          simp only [BlockMessage.validate_updated_account_balance_lock, hreq, hlk,
            validate_not_empty]
          rfl
        rw [hrun]
        constructor
        · intro hcon
          cases hcon
        · intro hcon
          have h2 : ("" : String) = make_balance_lock req := by
            injection hcon
          exact absurd h2.symm hmbl
      · have hrun : BlockMessage.validate_updated_account_balance_lock msg account st true
            = validate_exact_value (account_subject true account ++ " balance_lock")
                (some l) (some (make_balance_lock req)) := by
          simp only [BlockMessage.validate_updated_account_balance_lock, hreq, hlk,
            validate_not_empty, if_neg hl, ok_bind]
          rfl
        rw [hrun, validate_exact_value]
        by_cases heq : (some l : Option String) = some (make_balance_lock req)
        · rw [if_pos heq]
          simp [heq]
        · rw [if_neg heq]
          simp [heq]
  · have hbeq : (account == req.signer) = false := by
      rw [beq_eq_false_iff_ne]
      exact hsig
    rw [hbeq]
    simp only [if_neg hsig]
    cases hlk : st.balance_lock with
    | none =>
      have hrun : BlockMessage.validate_updated_account_balance_lock msg account st false
          = .ok () := by
        simp only [BlockMessage.validate_updated_account_balance_lock, Bool.false_eq_true,
          if_false, hlk, validate_empty]
      rw [hrun]
      simp
    | some l =>
      have hrun : BlockMessage.validate_updated_account_balance_lock msg account st false
          = .error (.validationError
              ((account_subject false account ++ " balance_lock") ++ " must be empty")) := by
        simp only [BlockMessage.validate_updated_account_balance_lock, Bool.false_eq_true,
          if_false, hlk, validate_empty]
      rw [hrun]
      simp

/-- Witness for C3: block 0's message with the signer account `a1`
carrying exactly the rotated lock. -/
theorem C3_lock_rule_witness :
    block0W.message.signed_change_request = some reqW ∧
      (make_balance_lock reqW ≠ ""
       ∧ (BlockMessage.validate_updated_account_balance_lock block0W.message "a1"
            ⟨70, some (make_balance_lock reqW)⟩ ("a1" == reqW.signer) = .ok ()
          ↔ (if "a1" = reqW.signer
             then (some (make_balance_lock reqW) : Option String) = some (make_balance_lock reqW)
             else (some (make_balance_lock reqW) : Option String) = none))) :=
  ⟨by decide,
    C3_lock_rule block0W.message "a1" ⟨70, some (make_balance_lock reqW)⟩ reqW (by decide)⟩

lemma pyIndex_mem {α : Type} (l : List α) (i : Int) (a : α)
    (h : pyIndex l i = some a) : a ∈ l := by
  rw [pyIndex] at h
  split at h
  · exact List.get?_mem h
  · split at h
    · exact List.get?_mem h
    · cases h

lemma persist_roundtrip (chain : MemoryBlockchain) (b : Block)
    (hnn : 0 ≤ b.message.block_number) :
    MemoryBlockchain.get_block_by_number (MemoryBlockchain.persist_block chain b)
      b.message.block_number = .ok (some b) := by
  rw [MemoryBlockchain.get_block_by_number]
  rw [if_neg (by omega)]
  simp only [MemoryBlockchain.persist_block, List.getLast?_concat]
  rw [if_neg (by omega : ¬ b.message.block_number < b.message.block_number)]
  have hpy : pyIndex (chain.blocks ++ [b])
      (b.message.block_number - b.message.block_number - 1) = some b := by
    rw [pyIndex]
    rw [if_neg (by omega)]
    rw [if_pos (by
      simp only [List.length_append, List.length_cons, List.length_nil]
      push_cast
      omega)]
    have harg : (((chain.blocks ++ [b]).length : Int)
        + (b.message.block_number - b.message.block_number - 1)).toNat
        = chain.blocks.length := by
      simp only [List.length_append, List.length_cons, List.length_nil]
      push_cast
      omega
    rw [harg]
    rw [List.get?_eq_getElem?]
    exact List.getElem?_concat_length chain.blocks b
  rw [hpy]

lemma persist_isolated (h : PyBlockHeap) (c : MemoryBlockchainRef) (bRef : Nat)
    (v b2 : Block)
    (hget : heap_get h bRef = some v)
    (hnotin : bRef ∉ c.block_refs) :
    stored_blocks (heap_set (persist_block_ref h c bRef).1 bRef b2)
        (persist_block_ref h c bRef).2
      = stored_blocks (persist_block_ref h c bRef).1 (persist_block_ref h c bRef).2 := by
  have hget2 : h.objs.get? bRef = some v := hget
  have hlt : bRef < h.objs.length := by
    by_contra hge
    rw [List.get?_eq_none.mpr (by omega)] at hget2
    cases hget2
  have hpr : persist_block_ref h c bRef
      = (⟨h.objs ++ [v]⟩, ⟨c.block_refs ++ [h.objs.length]⟩) := by
    rw [persist_block_ref, heap_get, hget2]
  rw [hpr]
  simp only [stored_blocks, heap_set, heap_get]
  apply List.map_congr_left
  intro x hx
  have hxne : bRef ≠ x := by
    rcases List.mem_append.mp hx with hx1 | hx2
    · intro hcon
      rw [← hcon] at hx1
      exact hnotin hx1
    · simp only [List.mem_singleton] at hx2
      omega
  simp only [heap_get, List.get?_eq_getElem?]
  rw [List.getElem?_set_ne hxne]

lemma ref_lookup_mem (h : PyBlockHeap) (c : MemoryBlockchainRef) (n : Int) (r : Nat)
    (hok : get_block_ref_by_number h c n = .ok (some r)) : r ∈ c.block_refs := by
  rw [get_block_ref_by_number] at hok
  split at hok
  · cases hok
  · split at hok
    · simp at hok
    · split at hok
      · cases hok
      · split at hok
        · simp at hok
        · split at hok
          · rename_i r2 hpy
            simp only [Except.ok.injEq, Option.some.injEq] at hok
            subst hok
            exact pyIndex_mem _ _ _ hpy
          · split at hok
            · cases hok
            · split at hok
              · cases hok
              · split at hok <;> cases hok

/-- C9 (amended): after `append(B)` the lookup by `B`'s (non-negative)
block number returns content equal to `B`; the store keeps an isolated
deep copy, so mutating the original object after the append never changes
stored state; but the lookup returns the stored object itself (a
reference into the store), so mutating the value returned by the lookup
does mutate stored state. -/
theorem C9_append_read_amended :
    (∀ (chain : MemoryBlockchain) (b : Block), 0 ≤ b.message.block_number →
      MemoryBlockchain.get_block_by_number (MemoryBlockchain.persist_block chain b)
        b.message.block_number = .ok (some b))
    ∧ (∀ (h : PyBlockHeap) (c : MemoryBlockchainRef) (bRef : Nat) (v b2 : Block),
        heap_get h bRef = some v → bRef ∉ c.block_refs →
        stored_blocks (heap_set (persist_block_ref h c bRef).1 bRef b2)
            (persist_block_ref h c bRef).2
          = stored_blocks (persist_block_ref h c bRef).1 (persist_block_ref h c bRef).2)
    ∧ (∀ (h : PyBlockHeap) (c : MemoryBlockchainRef) (n : Int) (r : Nat),
        get_block_ref_by_number h c n = .ok (some r) → r ∈ c.block_refs) :=
  ⟨persist_roundtrip, persist_isolated, ref_lookup_mem⟩

/-- Witness for C9 (amended): the one-object heap, appending block 0 and
then mutating first the original object, then the returned reference. -/
theorem C9_append_read_amended_witness :
    (0 : Int) ≤ block0W.message.block_number ∧
      MemoryBlockchain.get_block_by_number (MemoryBlockchain.persist_block chainT0 block0W)
        block0W.message.block_number = .ok (some block0W) ∧
      heap_get heap9 0 = some block0W ∧ (0 : Nat) ∉ cref9.block_refs ∧
      stored_blocks (heap_set (persist_block_ref heap9 cref9 0).1 0 block1W)
          (persist_block_ref heap9 cref9 0).2
        = stored_blocks (persist_block_ref heap9 cref9 0).1 (persist_block_ref heap9 cref9 0).2 ∧
      (get_block_ref_by_number (persist_block_ref heap9 cref9 0).1
          (persist_block_ref heap9 cref9 0).2 0 = .ok (some 1)
        → (1 : Nat) ∈ (persist_block_ref heap9 cref9 0).2.block_refs) :=
  ⟨by decide, C9_append_read_amended.1 chainT0 block0W (by decide), by decide, by decide,
    C9_append_read_amended.2.1 heap9 cref9 0 block0W block1W (by decide) (by decide),
    fun hh => C9_append_read_amended.2.2 _ _ 0 1 hh⟩

/-- C9 counterexample: the by-number lookup returns the stored reference
itself, so mutating the value it returns does change stored state — with
one block appended (a copy, stored as object 1), the lookup returns
reference 1 whose content equals the appended block, and setting object 1
to a different block value changes the stored sequence; the claim's
"mutating the value returned by the lookup never affects stored state" is
false on the code. -/
theorem C9_append_read_counterexample :
    get_block_ref_by_number (persist_block_ref heap9 cref9 0).1
        (persist_block_ref heap9 cref9 0).2 0 = .ok (some 1)
    ∧ heap_get (persist_block_ref heap9 cref9 0).1 1 = some block0W
    ∧ block1W ≠ block0W
    ∧ stored_blocks (heap_set (persist_block_ref heap9 cref9 0).1 1 block1W)
          (persist_block_ref heap9 cref9 0).2
        ≠ stored_blocks (persist_block_ref heap9 cref9 0).1 (persist_block_ref heap9 cref9 0).2 :=
  ⟨by decide, by decide, by decide, by decide⟩

/-- C10: serializing a `BlockAccountBalance` omits the `lock` key exactly
when the lock is `None`, includes it when the lock is set, and
deserializing the serialized form of an absent-lock record yields a record
whose lock is `None`. -/
theorem C10_lock_serialization :
    ∀ b : BlockAccountBalance,
      (b.lock = none → (BlockAccountBalance.override_to_dict b).lookup "lock" = none)
      ∧ (∀ s, b.lock = some s →
          (BlockAccountBalance.override_to_dict b).lookup "lock" = some (.vstr s))
      ∧ (b.lock = none →
          BlockAccountBalance.from_dict (BlockAccountBalance.override_to_dict b) = some b) := by
  intro b
  cases b with
  | mk v lk =>
    cases lk with
    | none =>
      refine ⟨fun _ => rfl, fun s hs => Option.noConfusion hs, fun _ => rfl⟩
    | some s0 =>
      refine ⟨fun hn => Option.noConfusion hn, fun s hs => ?_, fun hn => Option.noConfusion hn⟩
      injection hs with hss
      subst hss
      rfl

/-- Witness for C10: an absent-lock record drops the key and round-trips;
a present-lock record keeps the key. -/
theorem C10_lock_serialization_witness :
    ((BlockAccountBalance.override_to_dict ⟨5, none⟩).lookup "lock" = none)
    ∧ ((BlockAccountBalance.override_to_dict ⟨5, some "L"⟩).lookup "lock" = some (.vstr "L"))
    ∧ (BlockAccountBalance.from_dict (BlockAccountBalance.override_to_dict ⟨5, none⟩)
        = some ⟨5, none⟩) :=
  ⟨(C10_lock_serialization ⟨5, none⟩).1 rfl,
   (C10_lock_serialization ⟨5, some "L"⟩).2.1 "L" rfl,
   (C10_lock_serialization ⟨5, none⟩).2.2 rfl⟩
